import Mathlib

/-!
Shallow embedding of `src/rust_bonus_types.py`: LLDB formatters for
`smol_str::SmolStr` and `smallvec::SmallVec`.

LLDB value handles (`SBValue`) are modelled as finite trees of named
children carrying an unsigned value and a load address; an invalid
handle is a distinguished constructor, and every child access on an
invalid handle yields an invalid handle (as in the LLDB API).  Process
memory is a read primitive `address → length → Option bytes`
(`None` models a failed `SBError`), and UTF-8 decoding with replacement
is an opaque total parameter `dec`, since no claim depends on the exact
decoded text of a non-empty buffer.  The string synthetic provider's
`update` additionally returns the list of `(address, length)` pairs it
passed to `process.ReadMemory`, so that "no memory read is attempted"
is a statement about the returned log.
-/

/-- Model of `lldb.SBType`: validity plus `GetByteSize()`. -/
structure SBType where
  valid : Bool
  byteSize : Nat
deriving Repr, DecidableEq

/-- The invalid type, returned for template arguments of invalid values. -/
def invalidType : SBType := ⟨false, 0⟩

/-- Model of `lldb.SBValue`: either invalid, or a node carrying
`GetValueAsUnsigned()`, `GetLoadAddress()`, the first template argument
of its type, and its named children in declaration order. -/
inductive SBVal where
  | invalid : SBVal
  | node (valueUnsigned : Nat) (loadAddress : Nat) (tmpl0 : SBType)
      (children : List (String × SBVal)) : SBVal

/-- `SBValue.IsValid()`. -/
def SBVal.IsValid : SBVal → Bool
  | .invalid => false
  | .node _ _ _ _ => true

/-- `SBValue.GetChildMemberWithName(name)`: name lookup among the
children; an absent name, or any access on an invalid value, yields an
invalid value. -/
def SBVal.GetChildMemberWithName : SBVal → String → SBVal
  | .invalid, _ => .invalid
  | .node _ _ _ cs, n =>
    match cs.lookup n with
    | some v => v
    | none => .invalid

/-- `SBValue.GetChildAtIndex(i)`: positional child access. -/
def SBVal.GetChildAtIndex : SBVal → Nat → SBVal
  | .invalid, _ => .invalid
  | .node _ _ _ cs, i =>
    match cs.get? i with
    | some p => p.2
    | none => .invalid

/-- `SBValue.GetValueAsUnsigned()` (0 on an invalid value). -/
def SBVal.GetValueAsUnsigned : SBVal → Nat
  | .invalid => 0
  | .node u _ _ _ => u

/-- `SBValue.GetLoadAddress()` (0 on an invalid value; LLDB's
`LLDB_INVALID_ADDRESS` plays no role in the claims, which only compare
against 0 as the code does). -/
def SBVal.GetLoadAddress : SBVal → Nat
  | .invalid => 0
  | .node _ a _ _ => a

/-- `value.GetType().GetTemplateArgumentType(0)`. -/
def SBVal.GetTemplateArgumentType0 : SBVal → SBType
  | .invalid => invalidType
  | .node _ _ t _ => t

/-- `process.ReadMemory(address, length, error)`: `some bytes` on
success, `none` when the error flag is set. -/
def Mem : Type := Nat → Nat → Option (List Nat)

/-- A memory in which every read fails. -/
def memFail : Mem := fun _ _ => none

/-- A trivial concrete stand-in for `bytes.decode("utf-8", "replace")`,
used only to instantiate witnesses; the development is parametric in the
decoder. -/
def decTrivial : List Nat → String := fun _ => ""

/-- `'"%s"' % s`: the summary rendering of a decoded string. -/
def quoted (s : String) : String := "\"" ++ s ++ "\""

/-- `'""'`: the summary returned for an empty or unreadable string. -/
def quotedEmpty : String := "\"\""

/-! ## SmolStr: decoded record and field chains -/

/-- The state the `SmolStrSyntheticProvider` instance carries after
`update`: `variant_name`, `length`, `content`, `pointer`,
`content_address`, exactly the attributes set in `__init__`/`update`. -/
structure SmolStrRecord where
  variant_name : String
  length : Nat
  content : String
  pointer : Nat
  content_address : Nat
deriving Repr, DecidableEq

/-- The reset state produced at the top of `update` (and left in place
when decoding aborts). -/
def emptySmolStr : SmolStrRecord :=
  { variant_name := "", length := 0, content := "", pointer := 0, content_address := 0 }

/-- `valobj.GetNonSyntheticValue().GetChildAtIndex(0).GetChildMemberWithName("$variants$")`.
`GetNonSyntheticValue` is the identity in this embedding: the model tree
is already the raw (non-synthetic) layout. -/
def smolStrVariants (v : SBVal) : SBVal :=
  (v.GetChildAtIndex 0).GetChildMemberWithName "$variants$"

/-- `variants.GetChildMemberWithName("$variant$24")`. -/
def smolStrVariant24 (v : SBVal) : SBVal :=
  (smolStrVariants v).GetChildMemberWithName "$variant$24"

/-- `variant24.GetChildMemberWithName("$discr$")`. -/
def smolStrDiscrField (v : SBVal) : SBVal :=
  (smolStrVariant24 v).GetChildMemberWithName "$discr$"

/-- The discriminant resolution chain shared verbatim by
`SmolStrSummaryProvider` and `SmolStrSyntheticProvider.update`:
`some d` when `$variants$`, `$variant$24` and `$discr$` all resolve,
`none` when any of them is invalid. -/
def smolStrDiscriminant (v : SBVal) : Option Nat :=
  if !(smolStrVariants v).IsValid then none
  else if !(smolStrVariant24 v).IsValid then none
  else if !(smolStrDiscrField v).IsValid then none
  else some (smolStrDiscrField v).GetValueAsUnsigned

/-! ## SmolStr summary provider -/

/-- The `discriminant <= 23` branch of `SmolStrSummaryProvider`. -/
def smolStrSummaryInline (variants : SBVal) (mem : Mem) (dec : List Nat → String)
    (length : Nat) : String :=
  if length == 0 then quotedEmpty
  else
  let variant0 := variants.GetChildMemberWithName "$variant$"
  if !variant0.IsValid then quotedEmpty
  else
  let value := variant0.GetChildMemberWithName "value"
  if !value.IsValid then quotedEmpty
  else
  let buf := value.GetChildMemberWithName "buf"
  if !buf.IsValid then quotedEmpty
  else
  match mem buf.GetLoadAddress length with
  | some data => quoted (dec data)
  | none => quotedEmpty

/-- The `discriminant == 24` branch of `SmolStrSummaryProvider`. -/
def smolStrSummaryStatic (variant24 : SBVal) (mem : Mem) (dec : List Nat → String) : String :=
  let value := variant24.GetChildMemberWithName "value"
  if !value.IsValid then quotedEmpty
  else
  let str_ref := value.GetChildMemberWithName "__0"
  if !str_ref.IsValid then quotedEmpty
  else
  let data_ptr := str_ref.GetChildMemberWithName "data_ptr"
  let length_field := str_ref.GetChildMemberWithName "length"
  if !data_ptr.IsValid || !length_field.IsValid then quotedEmpty
  else
  let length := length_field.GetValueAsUnsigned
  if length == 0 then quotedEmpty
  else
  let ptr := data_ptr.GetValueAsUnsigned
  match mem ptr length with
  | some data => quoted (dec data)
  | none => quotedEmpty

/-- The `discriminant >= 25` branch of `SmolStrSummaryProvider`:
descends `$variant$25.value.__0.ptr.pointer` and reads at
`data_ptr + 16` (the Arc header of two 8-byte counters). -/
def smolStrSummaryHeap (variants : SBVal) (mem : Mem) (dec : List Nat → String) : String :=
  let variant25 := variants.GetChildMemberWithName "$variant$25"
  if !variant25.IsValid then quotedEmpty
  else
  let value := variant25.GetChildMemberWithName "value"
  if !value.IsValid then quotedEmpty
  else
  let inner := value.GetChildMemberWithName "__0"
  if !inner.IsValid then quotedEmpty
  else
  let ptr_field := inner.GetChildMemberWithName "ptr"
  if !ptr_field.IsValid then quotedEmpty
  else
  let pointer := ptr_field.GetChildMemberWithName "pointer"
  if !pointer.IsValid then quotedEmpty
  else
  let data_ptr := pointer.GetChildMemberWithName "data_ptr"
  let length_field := pointer.GetChildMemberWithName "length"
  if !data_ptr.IsValid || !length_field.IsValid then quotedEmpty
  else
  let length := length_field.GetValueAsUnsigned
  if length == 0 then quotedEmpty
  else
  let ptr := data_ptr.GetValueAsUnsigned
  let arc_header_size := 16
  let string_data_ptr := ptr + arc_header_size
  match mem string_data_ptr length with
  | some data => quoted (dec data)
  | none => quotedEmpty

/-- `SmolStrSummaryProvider(valobj, _dict)`: resolve the discriminant
chain, then dispatch on the discriminant range. -/
def SmolStrSummaryProvider (valobj : SBVal) (mem : Mem) (dec : List Nat → String) : String :=
  if !(smolStrVariants valobj).IsValid then quotedEmpty
  else if !(smolStrVariant24 valobj).IsValid then quotedEmpty
  else if !(smolStrDiscrField valobj).IsValid then quotedEmpty
  else
  let discriminant := (smolStrDiscrField valobj).GetValueAsUnsigned
  if discriminant ≤ 23 then
    smolStrSummaryInline (smolStrVariants valobj) mem dec discriminant
  else if discriminant == 24 then
    smolStrSummaryStatic (smolStrVariant24 valobj) mem dec
  else
    smolStrSummaryHeap (smolStrVariants valobj) mem dec

/-! ## SmolStr synthetic provider -/

/-- A read log: the `(address, length)` arguments of each
`process.ReadMemory` call issued by one `update`. -/
def ReadLog : Type := List (Nat × Nat)

/-- The `discriminant <= 23` branch of `SmolStrSyntheticProvider.update`.
`variant_name`/`length` are set before any further lookup; a length of 0
returns immediately; otherwise the inline buffer's load address becomes
`content_address` and one read is attempted there. -/
def smolStrUpdateInline (variants : SBVal) (mem : Mem) (dec : List Nat → String)
    (discriminant : Nat) : SmolStrRecord × ReadLog :=
  let base : SmolStrRecord :=
    { emptySmolStr with variant_name := "Inline", length := discriminant }
  if discriminant == 0 then (base, [])
  else
  let variant0 := variants.GetChildMemberWithName "$variant$"
  if !variant0.IsValid then (base, [])
  else
  let value := variant0.GetChildMemberWithName "value"
  if !value.IsValid then (base, [])
  else
  let buf := value.GetChildMemberWithName "buf"
  if !buf.IsValid then (base, [])
  else
  let withAddr := { base with content_address := buf.GetLoadAddress }
  match mem buf.GetLoadAddress discriminant with
  | some data => ({ withAddr with content := dec data }, [(buf.GetLoadAddress, discriminant)])
  | none => (withAddr, [(buf.GetLoadAddress, discriminant)])

/-- The `discriminant == 24` branch of `SmolStrSyntheticProvider.update`.
Note `content_address := pointer` is assigned before the `length == 0`
early return, exactly as in the source. -/
def smolStrUpdateStatic (variant24 : SBVal) (mem : Mem) (dec : List Nat → String) :
    SmolStrRecord × ReadLog :=
  let base : SmolStrRecord := { emptySmolStr with variant_name := "Static" }
  let value := variant24.GetChildMemberWithName "value"
  if !value.IsValid then (base, [])
  else
  let str_ref := value.GetChildMemberWithName "__0"
  if !str_ref.IsValid then (base, [])
  else
  let data_ptr := str_ref.GetChildMemberWithName "data_ptr"
  let length_field := str_ref.GetChildMemberWithName "length"
  if !data_ptr.IsValid || !length_field.IsValid then (base, [])
  else
  let length := length_field.GetValueAsUnsigned
  let pointer := data_ptr.GetValueAsUnsigned
  let filled :=
    { base with length := length, pointer := pointer, content_address := pointer }
  if length == 0 then (filled, [])
  else
  match mem pointer length with
  | some data => ({ filled with content := dec data }, [(pointer, length)])
  | none => (filled, [(pointer, length)])

/-- The `discriminant >= 25` branch of `SmolStrSyntheticProvider.update`.
`content_address := pointer + 16` is assigned only after the
`length == 0` early return, exactly as in the source. -/
def smolStrUpdateHeap (variants : SBVal) (mem : Mem) (dec : List Nat → String) :
    SmolStrRecord × ReadLog :=
  let base : SmolStrRecord := { emptySmolStr with variant_name := "Heap" }
  let variant25 := variants.GetChildMemberWithName "$variant$25"
  if !variant25.IsValid then (base, [])
  else
  let value := variant25.GetChildMemberWithName "value"
  if !value.IsValid then (base, [])
  else
  let inner := value.GetChildMemberWithName "__0"
  if !inner.IsValid then (base, [])
  else
  let ptr_field := inner.GetChildMemberWithName "ptr"
  if !ptr_field.IsValid then (base, [])
  else
  let pointer_field := ptr_field.GetChildMemberWithName "pointer"
  if !pointer_field.IsValid then (base, [])
  else
  let data_ptr := pointer_field.GetChildMemberWithName "data_ptr"
  let length_field := pointer_field.GetChildMemberWithName "length"
  if !data_ptr.IsValid || !length_field.IsValid then (base, [])
  else
  let length := length_field.GetValueAsUnsigned
  let pointer := data_ptr.GetValueAsUnsigned
  let filled := { base with length := length, pointer := pointer }
  if length == 0 then (filled, [])
  else
  let arc_header_size := 16
  let string_data_ptr := pointer + arc_header_size
  let withAddr := { filled with content_address := string_data_ptr }
  match mem string_data_ptr length with
  | some data => ({ withAddr with content := dec data }, [(string_data_ptr, length)])
  | none => (withAddr, [(string_data_ptr, length)])

/-- `SmolStrSyntheticProvider.update`: reset the record, resolve the
discriminant chain (any invalid step leaves the reset record), then
dispatch on the discriminant range.  The Python `try/except` wrapper has
no counterpart because every modelled primitive is total. -/
def SmolStrSyntheticProvider.update (valobj : SBVal) (mem : Mem)
    (dec : List Nat → String) : SmolStrRecord × ReadLog :=
  if !(smolStrVariants valobj).IsValid then (emptySmolStr, [])
  else if !(smolStrVariant24 valobj).IsValid then (emptySmolStr, [])
  else if !(smolStrDiscrField valobj).IsValid then (emptySmolStr, [])
  else
  let discriminant := (smolStrDiscrField valobj).GetValueAsUnsigned
  if discriminant ≤ 23 then
    smolStrUpdateInline (smolStrVariants valobj) mem dec discriminant
  else if discriminant == 24 then
    smolStrUpdateStatic (smolStrVariant24 valobj) mem dec
  else
    smolStrUpdateHeap (smolStrVariants valobj) mem dec

/-- `SmolStrSyntheticProvider.num_children`: 4 when the variant is
Static or Heap (the extra `pointer` child), otherwise 3. -/
def SmolStrSyntheticProvider.num_children (r : SmolStrRecord) : Nat :=
  if r.variant_name == "Static" || r.variant_name == "Heap" then 4 else 3

/-- `SmolStrSyntheticProvider.has_children`: constantly true. -/
def SmolStrSyntheticProvider.has_children (_ : SmolStrRecord) : Bool :=
  true

/-- The synthetic children the string provider materialises:
`CreateValueFromExpression` with a C string literal, with an unsigned
integer, `CreateValueFromAddress` with a `char[len]` type, or
`CreateValueFromExpression` with a pointer value. -/
inductive StrChild where
  | exprStr (name text : String) : StrChild
  | exprUInt (name : String) (value : Nat) : StrChild
  | fromAddress (name : String) (address len : Nat) : StrChild
  | exprPtr (name : String) (address : Nat) : StrChild
deriving Repr, DecidableEq

/-- `SmolStrSyntheticProvider.get_child_at_index` over the decoded
record (`index` is signed, as in the Python API). -/
def SmolStrSyntheticProvider.get_child_at_index (r : SmolStrRecord) (index : Int) :
    Option StrChild :=
  if index < 0 then none
  else if index == 0 then some (.exprStr "variant" r.variant_name)
  else if index == 1 then some (.exprUInt "length" r.length)
  else if index == 2 then
    if r.content_address != 0 && r.length > 0 then
      some (.fromAddress "content" r.content_address r.length)
    else
      some (.exprStr "content" "")
  else if index == 3 && (r.variant_name == "Static" || r.variant_name == "Heap") then
    some (.exprPtr "pointer" r.pointer)
  else none

/-! ## SmallVec: decoded record, summary and synthetic provider -/

/-- The state the `SmallVecSyntheticProvider` instance carries after
`update`: `length`, `is_heap`, `heap_ptr`, `inline_data_address`,
`element_size`, `element_type` (Python `None` is `none`). -/
structure SmallVecRecord where
  length : Nat
  is_heap : Bool
  heap_ptr : Nat
  inline_data_address : Nat
  element_size : Nat
  element_type : Option SBType
deriving Repr, DecidableEq

/-- The reset state produced at the top of `SmallVecSyntheticProvider.update`. -/
def emptySmallVec : SmallVecRecord :=
  { length := 0, is_heap := false, heap_ptr := 0, inline_data_address := 0,
    element_size := 0, element_type := none }

/-- `valobj.GetNonSyntheticValue().GetChildMemberWithName("len")`. -/
def smallVecLenField (v : SBVal) : SBVal :=
  v.GetChildMemberWithName "len"

/-- `len_field.GetChildMemberWithName("__0")`. -/
def smallVecLenInner (v : SBVal) : SBVal :=
  (smallVecLenField v).GetChildMemberWithName "__0"

/-- The raw length resolution chain shared verbatim by
`SmallVecSummaryProvider` and `SmallVecSyntheticProvider.update`:
`some len_value` when `len` and its `__0` inner field resolve. -/
def smallVecLenChain (v : SBVal) : Option Nat :=
  if !(smallVecLenField v).IsValid then none
  else if !(smallVecLenInner v).IsValid then none
  else some (smallVecLenInner v).GetValueAsUnsigned

/-- `SmallVecSummaryProvider(valobj, _dict)`: `"size=?"` when the length
chain is unreadable, otherwise `"size=%d" % (len_value >> 1)`. -/
def SmallVecSummaryProvider (valobj : SBVal) : String :=
  if !(smallVecLenField valobj).IsValid then "size=?"
  else if !(smallVecLenInner valobj).IsValid then "size=?"
  else
  let len_value := (smallVecLenInner valobj).GetValueAsUnsigned
  let actual_length := len_value >>> 1
  "size=" ++ toString actual_length

/-- The heap side of `SmallVecSyntheticProvider.update` (storage bit
set): descend `raw.heap.__0.pointer` and take its unsigned value as the
heap pointer, collapsing the length to 0 if any step fails or the
pointer is 0. -/
def smallVecUpdateHeapSide (raw : SBVal) (filled : SmallVecRecord) : SmallVecRecord :=
  let heap := raw.GetChildMemberWithName "heap"
  if !heap.IsValid then { filled with length := 0 }
  else
  let ptr_wrapper := heap.GetChildMemberWithName "__0"
  if !ptr_wrapper.IsValid then { filled with length := 0 }
  else
  let pointer := ptr_wrapper.GetChildMemberWithName "pointer"
  if !pointer.IsValid then { filled with length := 0 }
  else
  let heap_ptr := pointer.GetValueAsUnsigned
  if heap_ptr == 0 then { filled with length := 0, heap_ptr := heap_ptr }
  else { filled with heap_ptr := heap_ptr }

/-- The inline side of `SmallVecSyntheticProvider.update` (storage bit
clear): descend `raw.inline.value.value.value` and take its load address
as the inline base, collapsing the length to 0 if any step fails or the
address is 0. -/
def smallVecUpdateInlineSide (raw : SBVal) (filled : SmallVecRecord) : SmallVecRecord :=
  let inline := raw.GetChildMemberWithName "inline"
  if !inline.IsValid then { filled with length := 0 }
  else
  let value1 := inline.GetChildMemberWithName "value"
  if !value1.IsValid then { filled with length := 0 }
  else
  let value2 := value1.GetChildMemberWithName "value"
  if !value2.IsValid then { filled with length := 0 }
  else
  let value_array := value2.GetChildMemberWithName "value"
  if !value_array.IsValid then { filled with length := 0 }
  else
  let inline_data_address := value_array.GetLoadAddress
  if inline_data_address == 0 then
    { filled with length := 0, inline_data_address := inline_data_address }
  else { filled with inline_data_address := inline_data_address }

/-- `SmallVecSyntheticProvider.update`: decode the tag bit and count
from the raw length, resolve the element type and the storage base
address, collapsing `length` to 0 on each failure exactly where the
source does.  The Python `try/except` wrapper has no counterpart
because every modelled primitive is total. -/
def SmallVecSyntheticProvider.update (valobj : SBVal) : SmallVecRecord :=
  if !(smallVecLenField valobj).IsValid then emptySmallVec
  else if !(smallVecLenInner valobj).IsValid then emptySmallVec
  else
  let len_value := (smallVecLenInner valobj).GetValueAsUnsigned
  let is_heap := (len_value &&& 1) == 1
  let length := len_value >>> 1
  let element_type := valobj.GetTemplateArgumentType0
  if !element_type.valid then
    { emptySmallVec with is_heap := is_heap, element_type := some element_type }
  else
  let element_size := element_type.byteSize
  if element_size == 0 then
    { emptySmallVec with
      is_heap := is_heap, element_type := some element_type,
      element_size := element_size }
  else
  let filled : SmallVecRecord :=
    { length := length, is_heap := is_heap, heap_ptr := 0, inline_data_address := 0,
      element_size := element_size, element_type := some element_type }
  let raw := valobj.GetChildMemberWithName "raw"
  if !raw.IsValid then { filled with length := 0 }
  else if is_heap then smallVecUpdateHeapSide raw filled
  else smallVecUpdateInlineSide raw filled

/-- Whether the heap side of one `update` run reaches its end without
collapsing: the exact checks `smallVecUpdateHeapSide` performs. -/
def smallVecHeapSideOk (raw : SBVal) : Bool :=
  let heap := raw.GetChildMemberWithName "heap"
  if !heap.IsValid then false
  else
  let ptr_wrapper := heap.GetChildMemberWithName "__0"
  if !ptr_wrapper.IsValid then false
  else
  let pointer := ptr_wrapper.GetChildMemberWithName "pointer"
  if !pointer.IsValid then false
  else pointer.GetValueAsUnsigned != 0

/-- Whether the inline side of one `update` run reaches its end without
collapsing: the exact checks `smallVecUpdateInlineSide` performs. -/
def smallVecInlineSideOk (raw : SBVal) : Bool :=
  let inline := raw.GetChildMemberWithName "inline"
  if !inline.IsValid then false
  else
  let value1 := inline.GetChildMemberWithName "value"
  if !value1.IsValid then false
  else
  let value2 := value1.GetChildMemberWithName "value"
  if !value2.IsValid then false
  else
  let value_array := value2.GetChildMemberWithName "value"
  if !value_array.IsValid then false
  else value_array.GetLoadAddress != 0

/-- Whether one `SmallVecSyntheticProvider.update` run reaches its end
without collapsing: the exact conjunction of the checks `update`
performs after reading the raw length. -/
def smallVecDecodeOk (v : SBVal) : Bool :=
  match smallVecLenChain v with
  | none => false
  | some len_value =>
    let element_type := v.GetTemplateArgumentType0
    if !element_type.valid then false
    else if element_type.byteSize == 0 then false
    else
    let raw := v.GetChildMemberWithName "raw"
    if !raw.IsValid then false
    else if (len_value &&& 1) == 1 then smallVecHeapSideOk raw
    else smallVecInlineSideOk raw

/-- `SmallVecSyntheticProvider.num_children`. -/
def SmallVecSyntheticProvider.num_children (r : SmallVecRecord) : Nat :=
  r.length

/-- `SmallVecSyntheticProvider.has_children`. -/
def SmallVecSyntheticProvider.has_children (r : SmallVecRecord) : Bool :=
  decide (r.length > 0)

/-- The storage base address of a decoded vector record: the heap
pointer for heap storage, the first inline slot's address otherwise. -/
def vecBaseAddress (r : SmallVecRecord) : Nat :=
  if r.is_heap then r.heap_ptr else r.inline_data_address

/-- The synthetic child the vector provider materialises:
`CreateValueFromAddress("[i]", address, element_type)`. -/
inductive VecChild where
  | fromAddress (name : String) (address : Nat) (ty : SBType) : VecChild
deriving Repr, DecidableEq

/-- `SmallVecSyntheticProvider.get_child_at_index` over the decoded
record (`index` is signed, as in the Python API). -/
def SmallVecSyntheticProvider.get_child_at_index (r : SmallVecRecord) (index : Int) :
    Option VecChild :=
  if index < 0 || index ≥ (r.length : Int) then none
  else
  match r.element_type with
  | none => none
  | some t =>
    if !t.valid then none
    else if r.element_size == 0 then none
    else if r.is_heap then
      if r.heap_ptr == 0 then none
      else
        some (.fromAddress ("[" ++ toString index ++ "]")
          (r.heap_ptr + index.toNat * r.element_size) t)
    else
      if r.inline_data_address == 0 then none
      else
        some (.fromAddress ("[" ++ toString index ++ "]")
          (r.inline_data_address + index.toNat * r.element_size) t)

/-! ## Concrete sample values -/

/-- A leaf value carrying only an unsigned value. -/
def leafVal (u : Nat) : SBVal := .node u 0 invalidType []

/-- An interior value carrying only named children. -/
def wrapVal (cs : List (String × SBVal)) : SBVal := .node 0 0 invalidType cs

/-- A value with no children at all: every field chain is unreadable. -/
def bareNode : SBVal := wrapVal []

/-- A `u64`-like element type. -/
def u64Type : SBType := ⟨true, 8⟩

/-- An inline `SmolStr` of length 5 with its buffer at address 1000. -/
def sampleInline5 : SBVal :=
  wrapVal [("repr", wrapVal [("$variants$", wrapVal
    [("$variant$24", wrapVal [("$discr$", leafVal 5)]),
     ("$variant$", wrapVal [("value", wrapVal
       [("buf", SBVal.node 0 1000 invalidType [])])])])])]

/-- A static `SmolStr` with a nonzero data pointer (1) and length 0. -/
def sampleStaticEmpty : SBVal :=
  wrapVal [("repr", wrapVal [("$variants$", wrapVal
    [("$variant$24", wrapVal
      [("$discr$", leafVal 24),
       ("value", wrapVal [("__0", wrapVal
         [("data_ptr", leafVal 1), ("length", leafVal 0)])])])])])]

/-- A heap `SmolStr` with data pointer 8 and length 0. -/
def sampleHeapEmpty : SBVal :=
  wrapVal [("repr", wrapVal [("$variants$", wrapVal
    [("$variant$24", wrapVal [("$discr$", leafVal 25)]),
     ("$variant$25", wrapVal [("value", wrapVal [("__0", wrapVal
       [("ptr", wrapVal [("pointer", wrapVal
         [("data_ptr", leafVal 8), ("length", leafVal 0)])])])])])])])]

/-- A heap `SmolStr` with data pointer 8 and length 3. -/
def sampleHeapFull : SBVal :=
  wrapVal [("repr", wrapVal [("$variants$", wrapVal
    [("$variant$24", wrapVal [("$discr$", leafVal 25)]),
     ("$variant$25", wrapVal [("value", wrapVal [("__0", wrapVal
       [("ptr", wrapVal [("pointer", wrapVal
         [("data_ptr", leafVal 8), ("length", leafVal 3)])])])])])])])]

/-- A heap `SmallVec` with raw length 7 (odd, so heap storage and three
elements), `u64` elements, heap buffer at 4096. -/
def sampleVecHeap : SBVal :=
  SBVal.node 0 0 u64Type
    [("len", wrapVal [("__0", leafVal 7)]),
     ("raw", wrapVal [("heap", wrapVal [("__0", wrapVal
       [("pointer", leafVal 4096)])])])]

/-! ## Helper lemmas about the branch functions -/

/-- The inline branch always yields variant `Inline` with the
discriminant as the length; a zero discriminant yields the untouched
empty content/address and an empty read log. -/
theorem smolStrUpdateInline_spec (variants : SBVal) (mem : Mem)
    (dec : List Nat → String) (d : Nat) :
    (smolStrUpdateInline variants mem dec d).1.variant_name = "Inline"
    ∧ (smolStrUpdateInline variants mem dec d).1.length = d
    ∧ (d = 0 →
        (smolStrUpdateInline variants mem dec d).1.content = ""
        ∧ (smolStrUpdateInline variants mem dec d).2 = []
        ∧ (smolStrUpdateInline variants mem dec d).1.content_address = 0) := by
  unfold smolStrUpdateInline
  simp only [emptySmolStr]
  repeat' split
  all_goals simp_all

/-- The static branch always yields variant `Static` with
`content_address` equal to `pointer` (including when the length is 0);
when the length is 0 the content is empty and no read is logged. -/
theorem smolStrUpdateStatic_spec (variant24 : SBVal) (mem : Mem)
    (dec : List Nat → String) :
    (smolStrUpdateStatic variant24 mem dec).1.variant_name = "Static"
    ∧ (smolStrUpdateStatic variant24 mem dec).1.content_address
        = (smolStrUpdateStatic variant24 mem dec).1.pointer
    ∧ ((smolStrUpdateStatic variant24 mem dec).1.length = 0 →
        (smolStrUpdateStatic variant24 mem dec).1.content = ""
        ∧ (smolStrUpdateStatic variant24 mem dec).2 = []) := by
  unfold smolStrUpdateStatic
  simp only [emptySmolStr]
  repeat' split
  all_goals simp_all

/-- The heap branch always yields variant `Heap`; a zero length leaves
`content_address = 0`, empty content and an empty read log, while a
nonzero length sets `content_address = pointer + 16`. -/
theorem smolStrUpdateHeap_spec (variants : SBVal) (mem : Mem)
    (dec : List Nat → String) :
    (smolStrUpdateHeap variants mem dec).1.variant_name = "Heap"
    ∧ ((smolStrUpdateHeap variants mem dec).1.length = 0 →
        (smolStrUpdateHeap variants mem dec).1.content = ""
        ∧ (smolStrUpdateHeap variants mem dec).2 = []
        ∧ (smolStrUpdateHeap variants mem dec).1.content_address = 0)
    ∧ ((smolStrUpdateHeap variants mem dec).1.length ≠ 0 →
        (smolStrUpdateHeap variants mem dec).1.content_address
          = (smolStrUpdateHeap variants mem dec).1.pointer + 16) := by
  unfold smolStrUpdateHeap
  simp only [emptySmolStr]
  repeat' split
  all_goals simp_all

/-- When the discriminant chain resolves, `update` and the summary
provider dispatch to the branch selected by the discriminant range. -/
theorem smolStr_dispatch (v : SBVal) (mem : Mem) (dec : List Nat → String)
    (d : Nat) (h : smolStrDiscriminant v = some d) :
    SmolStrSyntheticProvider.update v mem dec =
      (if d ≤ 23 then smolStrUpdateInline (smolStrVariants v) mem dec d
       else if d = 24 then smolStrUpdateStatic (smolStrVariant24 v) mem dec
       else smolStrUpdateHeap (smolStrVariants v) mem dec)
    ∧ SmolStrSummaryProvider v mem dec =
      (if d ≤ 23 then smolStrSummaryInline (smolStrVariants v) mem dec d
       else if d = 24 then smolStrSummaryStatic (smolStrVariant24 v) mem dec
       else smolStrSummaryHeap (smolStrVariants v) mem dec) := by
  unfold smolStrDiscriminant at h
  unfold SmolStrSyntheticProvider.update SmolStrSummaryProvider
  split at h
  · exact absurd h (by simp)
  · split at h
    · exact absurd h (by simp)
    · split at h
      · exact absurd h (by simp)
      · simp_all

/-- The heap side never changes the storage flag. -/
theorem smallVecUpdateHeapSide_is_heap (raw : SBVal) (filled : SmallVecRecord) :
    (smallVecUpdateHeapSide raw filled).is_heap = filled.is_heap := by
  unfold smallVecUpdateHeapSide
  simp only []
  repeat' split
  all_goals rfl

/-- The heap side never changes the recorded element type. -/
theorem smallVecUpdateHeapSide_element_type (raw : SBVal) (filled : SmallVecRecord) :
    (smallVecUpdateHeapSide raw filled).element_type = filled.element_type := by
  unfold smallVecUpdateHeapSide
  simp only []
  repeat' split
  all_goals rfl

/-- The heap side never changes the recorded element size. -/
theorem smallVecUpdateHeapSide_element_size (raw : SBVal) (filled : SmallVecRecord) :
    (smallVecUpdateHeapSide raw filled).element_size = filled.element_size := by
  unfold smallVecUpdateHeapSide
  simp only []
  repeat' split
  all_goals rfl

/-- The heap side never touches the inline base address. -/
theorem smallVecUpdateHeapSide_inline_addr (raw : SBVal) (filled : SmallVecRecord) :
    (smallVecUpdateHeapSide raw filled).inline_data_address
      = filled.inline_data_address := by
  unfold smallVecUpdateHeapSide
  simp only []
  repeat' split
  all_goals rfl

/-- The heap side either collapses the length to 0 or keeps it and
records a nonzero heap pointer. -/
theorem smallVecUpdateHeapSide_length_cases (raw : SBVal) (filled : SmallVecRecord) :
    (smallVecUpdateHeapSide raw filled).length = 0
    ∨ ((smallVecUpdateHeapSide raw filled).length = filled.length
       ∧ (smallVecUpdateHeapSide raw filled).heap_ptr ≠ 0) := by
  unfold smallVecUpdateHeapSide
  simp only []
  repeat' split
  all_goals first
  | (left; rfl)
  | (right; exact ⟨rfl, by simp_all⟩)

/-- The inline side never changes the storage flag. -/
theorem smallVecUpdateInlineSide_is_heap (raw : SBVal) (filled : SmallVecRecord) :
    (smallVecUpdateInlineSide raw filled).is_heap = filled.is_heap := by
  unfold smallVecUpdateInlineSide
  simp only []
  repeat' split
  all_goals rfl

/-- The inline side never changes the recorded element type. -/
theorem smallVecUpdateInlineSide_element_type (raw : SBVal) (filled : SmallVecRecord) :
    (smallVecUpdateInlineSide raw filled).element_type = filled.element_type := by
  unfold smallVecUpdateInlineSide
  simp only []
  repeat' split
  all_goals rfl

/-- The inline side never changes the recorded element size. -/
theorem smallVecUpdateInlineSide_element_size (raw : SBVal) (filled : SmallVecRecord) :
    (smallVecUpdateInlineSide raw filled).element_size = filled.element_size := by
  unfold smallVecUpdateInlineSide
  simp only []
  repeat' split
  all_goals rfl

/-- The inline side never touches the heap pointer. -/
theorem smallVecUpdateInlineSide_heap_ptr (raw : SBVal) (filled : SmallVecRecord) :
    (smallVecUpdateInlineSide raw filled).heap_ptr = filled.heap_ptr := by
  unfold smallVecUpdateInlineSide
  simp only []
  repeat' split
  all_goals rfl

/-- The inline side either collapses the length to 0 or keeps it and
records a nonzero inline base address. -/
theorem smallVecUpdateInlineSide_length_cases (raw : SBVal) (filled : SmallVecRecord) :
    (smallVecUpdateInlineSide raw filled).length = 0
    ∨ ((smallVecUpdateInlineSide raw filled).length = filled.length
       ∧ (smallVecUpdateInlineSide raw filled).inline_data_address ≠ 0) := by
  unfold smallVecUpdateInlineSide
  simp only []
  repeat' split
  all_goals first
  | (left; rfl)
  | (right; exact ⟨rfl, by simp_all⟩)

/-- A passing heap side keeps the decoded length intact. -/
theorem smallVecHeapSideOk_length (raw : SBVal) (filled : SmallVecRecord)
    (hok : smallVecHeapSideOk raw = true) :
    (smallVecUpdateHeapSide raw filled).length = filled.length := by
  unfold smallVecHeapSideOk at hok
  simp only [] at hok
  repeat' split at hok
  all_goals try simp at hok
  unfold smallVecUpdateHeapSide
  simp only []
  repeat' split
  all_goals simp_all

/-- A passing inline side keeps the decoded length intact. -/
theorem smallVecInlineSideOk_length (raw : SBVal) (filled : SmallVecRecord)
    (hok : smallVecInlineSideOk raw = true) :
    (smallVecUpdateInlineSide raw filled).length = filled.length := by
  unfold smallVecInlineSideOk at hok
  simp only [] at hok
  repeat' split at hok
  all_goals try simp at hok
  unfold smallVecUpdateInlineSide
  simp only []
  repeat' split
  all_goals simp_all

/-- After `SmallVecSyntheticProvider.update`, a readable raw length
determines the storage kind: the record's `is_heap` is the low bit of
the raw length on every path, collapsed or not. -/
theorem smallVec_isHeap (v : SBVal) (r : Nat) (h : smallVecLenChain v = some r) :
    (SmallVecSyntheticProvider.update v).is_heap = ((r &&& 1) == 1) := by
  unfold smallVecLenChain at h
  repeat' split at h
  all_goals simp only [Option.some.injEq, reduceCtorEq] at h
  unfold SmallVecSyntheticProvider.update
  simp only [emptySmallVec]
  repeat' split
  all_goals first
  | (simp_all; done)
  | (rw [smallVecUpdateHeapSide_is_heap]; simp_all)
  | (rw [smallVecUpdateInlineSide_is_heap]; simp_all)

/-- Invariant of `SmallVecSyntheticProvider.update`: either the decoded
length is 0, or the record certifies a valid element type of nonzero
size and a nonzero base address on the selected storage side. -/
theorem smallVec_update_inv (v : SBVal) :
    (SmallVecSyntheticProvider.update v).length = 0
    ∨ ((SmallVecSyntheticProvider.update v).element_type
        = some v.GetTemplateArgumentType0
    ∧ v.GetTemplateArgumentType0.valid = true
    ∧ (SmallVecSyntheticProvider.update v).element_size
        = v.GetTemplateArgumentType0.byteSize
    ∧ (SmallVecSyntheticProvider.update v).element_size ≠ 0
    ∧ ((SmallVecSyntheticProvider.update v).is_heap = true →
        (SmallVecSyntheticProvider.update v).heap_ptr ≠ 0)
    ∧ ((SmallVecSyntheticProvider.update v).is_heap = false →
        (SmallVecSyntheticProvider.update v).inline_data_address ≠ 0)) := by
  unfold SmallVecSyntheticProvider.update
  simp only [emptySmallVec]
  repeat' split
  all_goals try (left; rfl)
  all_goals first
  | (refine (smallVecUpdateHeapSide_length_cases _ _).imp (fun h0 => h0) (fun hg => ?_)
     obtain ⟨hl, hp⟩ := hg
     refine ⟨?_, ?_, ?_, ?_, ?_, ?_⟩ <;>
       simp_all [smallVecUpdateHeapSide_is_heap, smallVecUpdateHeapSide_element_type,
         smallVecUpdateHeapSide_element_size, smallVecUpdateHeapSide_inline_addr])
  | (refine (smallVecUpdateInlineSide_length_cases _ _).imp (fun h0 => h0) (fun hg => ?_)
     obtain ⟨hl, hp⟩ := hg
     refine ⟨?_, ?_, ?_, ?_, ?_, ?_⟩ <;>
       simp_all [smallVecUpdateInlineSide_is_heap, smallVecUpdateInlineSide_element_type,
         smallVecUpdateInlineSide_element_size, smallVecUpdateInlineSide_heap_ptr])

/-- When every check of `update` passes, the decoded length is the raw
length shifted right by one bit. -/
theorem smallVec_length_of_ok (v : SBVal) (r : Nat)
    (h : smallVecLenChain v = some r) (hok : smallVecDecodeOk v = true) :
    (SmallVecSyntheticProvider.update v).length = r >>> 1 := by
  have hlen := h
  unfold smallVecLenChain at hlen
  repeat' split at hlen
  all_goals simp only [Option.some.injEq, reduceCtorEq] at hlen
  unfold smallVecDecodeOk at hok
  rw [h] at hok
  simp only [] at hok
  unfold SmallVecSyntheticProvider.update
  simp only [emptySmallVec]
  repeat' split
  all_goals first
  | (simp_all; done)
  | (rw [smallVecHeapSideOk_length _ _ (by simp_all)]; simp_all)
  | (rw [smallVecInlineSideOk_length _ _ (by simp_all)]; simp_all)

/-- When the discriminant chain does not resolve, `update` leaves the
empty record with no reads and the summary is the quoted empty string. -/
theorem smolStr_dispatch_none (v : SBVal) (mem : Mem) (dec : List Nat → String)
    (h : smolStrDiscriminant v = none) :
    SmolStrSyntheticProvider.update v mem dec = (emptySmolStr, [])
    ∧ SmolStrSummaryProvider v mem dec = quotedEmpty := by
  unfold smolStrDiscriminant at h
  unfold SmolStrSyntheticProvider.update SmolStrSummaryProvider
  repeat' split at h
  all_goals simp_all

/-- When the raw length chain does not resolve, the vector summary
degrades to size=? and `update` leaves the empty record. -/
theorem smallVec_none (v : SBVal) (h : smallVecLenChain v = none) :
    SmallVecSummaryProvider v = "size=?"
    ∧ SmallVecSyntheticProvider.update v = emptySmallVec := by
  unfold smallVecLenChain at h
  unfold SmallVecSummaryProvider SmallVecSyntheticProvider.update
  repeat' split at h
  all_goals simp_all

/-! ## Claim theorems -/

/-- Claim C1: for every small-string value whose discriminant d satisfies
0 ≤ d ≤ 23, decoding yields variant Inline and length d; for d = 24 it
yields variant Static; for every d ≥ 25 it yields variant Heap — both in
the synthetic provider's decoded record and in the summary provider's
branch selection. -/
theorem claim_C1 (v : SBVal) (mem : Mem) (dec : List Nat → String) (d : Nat)
    (h : smolStrDiscriminant v = some d) :
    (d ≤ 23 →
      (SmolStrSyntheticProvider.update v mem dec).1.variant_name = "Inline"
      ∧ (SmolStrSyntheticProvider.update v mem dec).1.length = d
      ∧ SmolStrSummaryProvider v mem dec
          = smolStrSummaryInline (smolStrVariants v) mem dec d)
    ∧ (d = 24 →
      (SmolStrSyntheticProvider.update v mem dec).1.variant_name = "Static"
      ∧ SmolStrSummaryProvider v mem dec
          = smolStrSummaryStatic (smolStrVariant24 v) mem dec)
    ∧ (25 ≤ d →
      (SmolStrSyntheticProvider.update v mem dec).1.variant_name = "Heap"
      ∧ SmolStrSummaryProvider v mem dec
          = smolStrSummaryHeap (smolStrVariants v) mem dec) := by
  obtain ⟨hu, hs⟩ := smolStr_dispatch v mem dec d h
  refine ⟨fun h23 => ?_, fun h24 => ?_, fun h25 => ?_⟩
  · rw [hu, hs]
    simp only [if_pos h23]
    exact ⟨(smolStrUpdateInline_spec _ mem dec d).1,
      (smolStrUpdateInline_spec _ mem dec d).2.1, by trivial⟩
  · have h1 : ¬ d ≤ 23 := by omega
    rw [hu, hs]
    simp only [if_neg h1, if_pos h24]
    exact ⟨(smolStrUpdateStatic_spec _ mem dec).1, by trivial⟩
  · have h1 : ¬ d ≤ 23 := by omega
    have h2 : ¬ d = 24 := by omega
    rw [hu, hs]
    simp only [if_neg h1, if_neg h2]
    exact ⟨(smolStrUpdateHeap_spec _ mem dec).1, by trivial⟩

/-- Witness for C1 at a concrete inline string with discriminant 5. -/
theorem claim_C1_witness :
    smolStrDiscriminant sampleInline5 = some 5
    ∧ ((5 ≤ 23 →
      (SmolStrSyntheticProvider.update sampleInline5 memFail decTrivial).1.variant_name
          = "Inline"
      ∧ (SmolStrSyntheticProvider.update sampleInline5 memFail decTrivial).1.length = 5
      ∧ SmolStrSummaryProvider sampleInline5 memFail decTrivial
          = smolStrSummaryInline (smolStrVariants sampleInline5) memFail decTrivial 5)
    ∧ (5 = 24 →
      (SmolStrSyntheticProvider.update sampleInline5 memFail decTrivial).1.variant_name
          = "Static"
      ∧ SmolStrSummaryProvider sampleInline5 memFail decTrivial
          = smolStrSummaryStatic (smolStrVariant24 sampleInline5) memFail decTrivial)
    ∧ (25 ≤ 5 →
      (SmolStrSyntheticProvider.update sampleInline5 memFail decTrivial).1.variant_name
          = "Heap"
      ∧ SmolStrSummaryProvider sampleInline5 memFail decTrivial
          = smolStrSummaryHeap (smolStrVariants sampleInline5) memFail decTrivial)) :=
  ⟨by rfl, claim_C1 sampleInline5 memFail decTrivial 5 (by rfl)⟩

/-- Claim C2: for every small-vector value with raw length field r, the
decoded record has heap storage iff r is odd; the decoded element count
equals r shifted right by one bit (when the decode completes); the
summary renders size=(r >> 1). -/
theorem claim_C2 (v : SBVal) (r : Nat) (h : smallVecLenChain v = some r) :
    ((SmallVecSyntheticProvider.update v).is_heap = true ↔ r % 2 = 1)
    ∧ SmallVecSummaryProvider v = "size=" ++ toString (r >>> 1)
    ∧ (smallVecDecodeOk v = true →
        (SmallVecSyntheticProvider.update v).length = r >>> 1) := by
  refine ⟨?_, ?_, fun hok => smallVec_length_of_ok v r h hok⟩
  · rw [smallVec_isHeap v r h]
    simp [Nat.and_one_is_mod]
  · have hlen := h
    unfold smallVecLenChain at hlen
    unfold SmallVecSummaryProvider
    repeat' split at hlen
    all_goals simp only [Option.some.injEq, reduceCtorEq] at hlen
    simp_all

/-- Witness for C2 at a concrete heap vector with raw length 7. -/
theorem claim_C2_witness :
    smallVecLenChain sampleVecHeap = some 7
    ∧ (((SmallVecSyntheticProvider.update sampleVecHeap).is_heap = true ↔ 7 % 2 = 1)
    ∧ SmallVecSummaryProvider sampleVecHeap = "size=" ++ toString (7 >>> 1)
    ∧ (smallVecDecodeOk sampleVecHeap = true →
        (SmallVecSyntheticProvider.update sampleVecHeap).length = 7 >>> 1)) :=
  ⟨by rfl, claim_C2 sampleVecHeap 7 (by rfl)⟩

/-- Counterexample to claim C3 as stated: a heap-variant small string
with data pointer 8 and length 0 decodes with content_address 0, not
pointer + 16 = 24. -/
theorem claim_C3_counterexample :
    (SmolStrSyntheticProvider.update sampleHeapEmpty memFail decTrivial).1.variant_name
        = "Heap"
    ∧ (SmolStrSyntheticProvider.update sampleHeapEmpty memFail decTrivial).1.length = 0
    ∧ (SmolStrSyntheticProvider.update sampleHeapEmpty memFail decTrivial).1.pointer = 8
    ∧ ¬ (SmolStrSyntheticProvider.update sampleHeapEmpty memFail decTrivial).1.content_address
        = 8 + 16 :=
  ⟨by rfl, by rfl, by rfl, by decide⟩

/-- Claim C3 (amended): for every small-string value decoded as the
Heap variant, content_address equals pointer + 16 when the decoded
length is nonzero; when the decoded length is 0 the content_address is
left at 0. -/
theorem claim_C3 (v : SBVal) (mem : Mem) (dec : List Nat → String)
    (h : (SmolStrSyntheticProvider.update v mem dec).1.variant_name = "Heap") :
    ((SmolStrSyntheticProvider.update v mem dec).1.length = 0 →
      (SmolStrSyntheticProvider.update v mem dec).1.content_address = 0)
    ∧ ((SmolStrSyntheticProvider.update v mem dec).1.length ≠ 0 →
      (SmolStrSyntheticProvider.update v mem dec).1.content_address
        = (SmolStrSyntheticProvider.update v mem dec).1.pointer + 16) := by
  rcases hd : smolStrDiscriminant v with _ | d
  · have h2 := (smolStr_dispatch_none v mem dec hd).1
    rw [h2] at h
    simp [emptySmolStr] at h
  · obtain ⟨hu, -⟩ := smolStr_dispatch v mem dec d hd
    by_cases h23 : d ≤ 23
    · rw [hu] at h
      simp only [if_pos h23] at h
      rw [(smolStrUpdateInline_spec (smolStrVariants v) mem dec d).1] at h
      exact absurd h (by decide)
    · by_cases h24 : d = 24
      · rw [hu] at h
        simp only [if_neg h23, if_pos h24] at h
        rw [(smolStrUpdateStatic_spec (smolStrVariant24 v) mem dec).1] at h
        exact absurd h (by decide)
      · rw [hu]
        simp only [if_neg h23, if_neg h24]
        exact ⟨fun h0 =>
            ((smolStrUpdateHeap_spec (smolStrVariants v) mem dec).2.1 h0).2.2,
          fun h0 => (smolStrUpdateHeap_spec (smolStrVariants v) mem dec).2.2 h0⟩

/-- Witness for amended C3 at a concrete heap string with pointer 8 and
length 3 (content address 24 = 8 + 16). -/
theorem claim_C3_witness :
    (SmolStrSyntheticProvider.update sampleHeapFull memFail decTrivial).1.variant_name
        = "Heap"
    ∧ (((SmolStrSyntheticProvider.update sampleHeapFull memFail decTrivial).1.length = 0 →
      (SmolStrSyntheticProvider.update sampleHeapFull memFail decTrivial).1.content_address
        = 0)
    ∧ ((SmolStrSyntheticProvider.update sampleHeapFull memFail decTrivial).1.length ≠ 0 →
      (SmolStrSyntheticProvider.update sampleHeapFull memFail decTrivial).1.content_address
        = (SmolStrSyntheticProvider.update sampleHeapFull memFail decTrivial).1.pointer
            + 16)) :=
  ⟨by rfl, claim_C3 sampleHeapFull memFail decTrivial (by rfl)⟩

/-- Counterexample to claim C4 as stated: a static-variant small string
with data pointer 1 and length 0 decodes with content_address 1, not 0. -/
theorem claim_C4_counterexample :
    (SmolStrSyntheticProvider.update sampleStaticEmpty memFail decTrivial).1.length = 0
    ∧ (SmolStrSyntheticProvider.update sampleStaticEmpty memFail
        decTrivial).1.content_address = 1
    ∧ ¬ (SmolStrSyntheticProvider.update sampleStaticEmpty memFail
        decTrivial).1.content_address = 0 :=
  ⟨by rfl, by rfl, by decide⟩

/-- Claim C4 (amended): for every small-string value, a decoded length
of 0 forces empty content and an empty read log (no memory read is
attempted); content_address is 0 for the Inline and Heap variants, while
for the Static variant it equals the decoded pointer. -/
theorem claim_C4 (v : SBVal) (mem : Mem) (dec : List Nat → String)
    (h : (SmolStrSyntheticProvider.update v mem dec).1.length = 0) :
    (SmolStrSyntheticProvider.update v mem dec).1.content = ""
    ∧ (SmolStrSyntheticProvider.update v mem dec).2 = []
    ∧ ((SmolStrSyntheticProvider.update v mem dec).1.variant_name ≠ "Static" →
        (SmolStrSyntheticProvider.update v mem dec).1.content_address = 0)
    ∧ ((SmolStrSyntheticProvider.update v mem dec).1.variant_name = "Static" →
        (SmolStrSyntheticProvider.update v mem dec).1.content_address
          = (SmolStrSyntheticProvider.update v mem dec).1.pointer) := by
  rcases hd : smolStrDiscriminant v with _ | d
  · have h2 := (smolStr_dispatch_none v mem dec hd).1
    rw [h2]
    simp [emptySmolStr]
  · obtain ⟨hu, -⟩ := smolStr_dispatch v mem dec d hd
    by_cases h23 : d ≤ 23
    · rw [hu] at h ⊢
      simp only [if_pos h23] at h ⊢
      obtain ⟨hv, hl, hz⟩ := smolStrUpdateInline_spec (smolStrVariants v) mem dec d
      rw [hl] at h
      obtain ⟨hc, hlog, hca⟩ := hz h
      refine ⟨hc, hlog, fun _ => hca, fun hst => ?_⟩
      rw [hv] at hst
      exact absurd hst (by decide)
    · by_cases h24 : d = 24
      · rw [hu] at h ⊢
        simp only [if_neg h23, if_pos h24] at h ⊢
        obtain ⟨hv, hca, hz⟩ := smolStrUpdateStatic_spec (smolStrVariant24 v) mem dec
        obtain ⟨hc, hlog⟩ := hz h
        exact ⟨hc, hlog, fun hns => absurd hv hns, fun _ => hca⟩
      · rw [hu] at h ⊢
        simp only [if_neg h23, if_neg h24] at h ⊢
        obtain ⟨hv, hz, -⟩ := smolStrUpdateHeap_spec (smolStrVariants v) mem dec
        obtain ⟨hc, hlog, hca⟩ := hz h
        refine ⟨hc, hlog, fun _ => hca, fun hst => ?_⟩
        rw [hv] at hst
        exact absurd hst (by decide)

/-- Witness for amended C4 at the concrete empty static string: no read
is logged and content_address equals the pointer. -/
theorem claim_C4_witness :
    (SmolStrSyntheticProvider.update sampleStaticEmpty memFail decTrivial).1.length = 0
    ∧ ((SmolStrSyntheticProvider.update sampleStaticEmpty memFail decTrivial).1.content
        = ""
    ∧ (SmolStrSyntheticProvider.update sampleStaticEmpty memFail decTrivial).2 = []
    ∧ ((SmolStrSyntheticProvider.update sampleStaticEmpty memFail
          decTrivial).1.variant_name ≠ "Static" →
        (SmolStrSyntheticProvider.update sampleStaticEmpty memFail
          decTrivial).1.content_address = 0)
    ∧ ((SmolStrSyntheticProvider.update sampleStaticEmpty memFail
          decTrivial).1.variant_name = "Static" →
        (SmolStrSyntheticProvider.update sampleStaticEmpty memFail
          decTrivial).1.content_address
          = (SmolStrSyntheticProvider.update sampleStaticEmpty memFail
              decTrivial).1.pointer)) :=
  ⟨by rfl, claim_C4 sampleStaticEmpty memFail decTrivial (by rfl)⟩

/-- Counterexample to claim C5 as stated: with the length field missing
the vector summary is size=?, not size=0, and the string synthetic
provider still exposes 3 children, not zero. -/
theorem claim_C5_counterexample :
    smallVecLenChain bareNode = none
    ∧ SmallVecSummaryProvider bareNode = "size=?"
    ∧ ¬ SmallVecSummaryProvider bareNode = "size=0"
    ∧ SmolStrSyntheticProvider.num_children
        (SmolStrSyntheticProvider.update bareNode memFail decTrivial).1 = 3 :=
  ⟨by rfl, by rfl, by decide, by rfl⟩

/-- Claim C5 (amended): a value whose required intermediate chain is
missing decodes without error: the string summary is the quoted empty
string and the string record is the reset record (its provider still
reports its three fixed children); the vector summary degrades to
size=? when the length chain is unreadable and the vector then exposes
zero synthetic children. -/
theorem claim_C5 (v : SBVal) (mem : Mem) (dec : List Nat → String) :
    (smolStrDiscriminant v = none →
      SmolStrSummaryProvider v mem dec = "\"\""
      ∧ (SmolStrSyntheticProvider.update v mem dec).1 = emptySmolStr
      ∧ (SmolStrSyntheticProvider.update v mem dec).2 = [])
    ∧ (smallVecLenChain v = none →
      SmallVecSummaryProvider v = "size=?"
      ∧ SmallVecSyntheticProvider.update v = emptySmallVec
      ∧ SmallVecSyntheticProvider.num_children (SmallVecSyntheticProvider.update v)
          = 0) := by
  constructor
  · intro hd
    obtain ⟨hu, hs⟩ := smolStr_dispatch_none v mem dec hd
    exact ⟨by rw [hs]; rfl, by rw [hu], by rw [hu]⟩
  · intro hl
    obtain ⟨hs, hu⟩ := smallVec_none v hl
    exact ⟨hs, hu, by rw [hu]; rfl⟩

/-- Witness for amended C5 at a concrete childless value. -/
theorem claim_C5_witness :
    smolStrDiscriminant bareNode = none
    ∧ smallVecLenChain bareNode = none
    ∧ SmolStrSummaryProvider bareNode memFail decTrivial = "\"\""
    ∧ (SmolStrSyntheticProvider.update bareNode memFail decTrivial).1 = emptySmolStr
    ∧ (SmolStrSyntheticProvider.update bareNode memFail decTrivial).2 = []
    ∧ SmallVecSummaryProvider bareNode = "size=?"
    ∧ SmallVecSyntheticProvider.update bareNode = emptySmallVec
    ∧ SmallVecSyntheticProvider.num_children (SmallVecSyntheticProvider.update bareNode)
        = 0 := by
  obtain ⟨h1, h2⟩ := claim_C5 bareNode memFail decTrivial
  obtain ⟨a1, a2, a3⟩ := h1 (by rfl)
  obtain ⟨b1, b2, b3⟩ := h2 (by rfl)
  exact ⟨by rfl, by rfl, a1, a2, a3, b1, b2, b3⟩

/-- Claim C6: for every small-vector value, a nonzero decoded element
count certifies a valid element type with nonzero byte size and a
nonzero storage base address; otherwise the record is treated as empty
(its length is forced to 0). -/
theorem claim_C6 (v : SBVal)
    (h : (SmallVecSyntheticProvider.update v).length ≠ 0) :
    (∃ t, (SmallVecSyntheticProvider.update v).element_type = some t
      ∧ t.valid = true ∧ t.byteSize ≠ 0)
    ∧ (SmallVecSyntheticProvider.update v).element_size ≠ 0
    ∧ vecBaseAddress (SmallVecSyntheticProvider.update v) ≠ 0 := by
  rcases smallVec_update_inv v with h0 | ⟨he, hv, hs, hnz, hh, hi⟩
  · exact absurd h0 h
  · refine ⟨⟨v.GetTemplateArgumentType0, he, hv, ?_⟩, hnz, ?_⟩
    · rw [← hs]; exact hnz
    · unfold vecBaseAddress
      cases hb : (SmallVecSyntheticProvider.update v).is_heap
      · simpa [hb] using hi hb
      · simpa [hb] using hh hb

/-- Witness for C6 at the concrete heap vector (count 3, base 4096). -/
theorem claim_C6_witness :
    (SmallVecSyntheticProvider.update sampleVecHeap).length ≠ 0
    ∧ ((∃ t, (SmallVecSyntheticProvider.update sampleVecHeap).element_type = some t
      ∧ t.valid = true ∧ t.byteSize ≠ 0)
    ∧ (SmallVecSyntheticProvider.update sampleVecHeap).element_size ≠ 0
    ∧ vecBaseAddress (SmallVecSyntheticProvider.update sampleVecHeap) ≠ 0) :=
  ⟨by decide, claim_C6 sampleVecHeap (by decide)⟩

/-- Claim C7: for every decoded small-vector record and every index i
with 0 ≤ i < length, requesting child i yields a typed view at address
base_address + i * element_size, where the base address is the heap
pointer for heap storage and the first inline slot's address for inline
storage. -/
theorem claim_C7 (v : SBVal) (i : Int)
    (h0 : 0 ≤ i)
    (h1 : i < ((SmallVecSyntheticProvider.update v).length : Int)) :
    ∃ t, (SmallVecSyntheticProvider.update v).element_type = some t
      ∧ SmallVecSyntheticProvider.get_child_at_index
          (SmallVecSyntheticProvider.update v) i
        = some (VecChild.fromAddress ("[" ++ toString i ++ "]")
            (vecBaseAddress (SmallVecSyntheticProvider.update v)
              + i.toNat * (SmallVecSyntheticProvider.update v).element_size) t) := by
  have hlen : (SmallVecSyntheticProvider.update v).length ≠ 0 := by
    intro hz
    rw [hz] at h1
    omega
  rcases smallVec_update_inv v with hz | ⟨he, hv, hs, hnz, hh, hi⟩
  · exact absurd hz hlen
  · refine ⟨v.GetTemplateArgumentType0, he, ?_⟩
    have hg1 : ¬ i < 0 := by omega
    have hg2 : ¬ i ≥ ((SmallVecSyntheticProvider.update v).length : Int) := by omega
    unfold SmallVecSyntheticProvider.get_child_at_index vecBaseAddress
    rw [he]
    cases hb : (SmallVecSyntheticProvider.update v).is_heap
    · simp [hg1, hg2, hb, hv, hnz, hi hb]
    · simp [hg1, hg2, hb, hv, hnz, hh hb]

/-- Witness for C7 at the concrete heap vector, index 2 (address
4096 + 2 * 8). -/
theorem claim_C7_witness :
    (0 : Int) ≤ 2
    ∧ (2 : Int) < ((SmallVecSyntheticProvider.update sampleVecHeap).length : Int)
    ∧ ∃ t, (SmallVecSyntheticProvider.update sampleVecHeap).element_type = some t
      ∧ SmallVecSyntheticProvider.get_child_at_index
          (SmallVecSyntheticProvider.update sampleVecHeap) 2
        = some (VecChild.fromAddress ("[" ++ toString (2 : Int) ++ "]")
            (vecBaseAddress (SmallVecSyntheticProvider.update sampleVecHeap)
              + (2 : Int).toNat
                  * (SmallVecSyntheticProvider.update sampleVecHeap).element_size) t) :=
  ⟨by decide, by decide, claim_C7 sampleVecHeap 2 (by decide) (by decide)⟩

/-- Claim C8: for every decoded small-string record, the synthetic
children are variant (text), length (unsigned), content (length bytes at
content_address, or an empty placeholder when address or length is 0),
and a fourth child pointer exposed iff the variant is Static or Heap. -/
theorem claim_C8 (r : SmolStrRecord) :
    SmolStrSyntheticProvider.get_child_at_index r 0
        = some (StrChild.exprStr "variant" r.variant_name)
    ∧ SmolStrSyntheticProvider.get_child_at_index r 1
        = some (StrChild.exprUInt "length" r.length)
    ∧ SmolStrSyntheticProvider.get_child_at_index r 2
        = some (if r.content_address != 0 && r.length > 0 then
            StrChild.fromAddress "content" r.content_address r.length
          else StrChild.exprStr "content" "")
    ∧ ((SmolStrSyntheticProvider.get_child_at_index r 3).isSome = true
        ↔ (r.variant_name = "Static" ∨ r.variant_name = "Heap"))
    ∧ SmolStrSyntheticProvider.num_children r
        = (if r.variant_name = "Static" ∨ r.variant_name = "Heap" then 4 else 3) := by
  refine ⟨?_, ?_, ?_, ?_, ?_⟩
  · simp [SmolStrSyntheticProvider.get_child_at_index]
  · simp [SmolStrSyntheticProvider.get_child_at_index]
  · simp only [SmolStrSyntheticProvider.get_child_at_index]
    norm_num
    split <;> rfl
  · simp only [SmolStrSyntheticProvider.get_child_at_index]
    norm_num
  · simp only [SmolStrSyntheticProvider.num_children]
    split <;> split <;> simp_all

/-- Claim C9: the string synthetic provider always reports has_children
and at least 3 children; the child count is never 0, even for the empty
record of a failed decode. -/
theorem claim_C9 (r : SmolStrRecord) :
    SmolStrSyntheticProvider.has_children r = true
    ∧ 3 ≤ SmolStrSyntheticProvider.num_children r
    ∧ SmolStrSyntheticProvider.num_children r ≠ 0 := by
  refine ⟨rfl, ?_, ?_⟩
  · unfold SmolStrSyntheticProvider.num_children
    split <;> simp
  · unfold SmolStrSyntheticProvider.num_children
    split <;> simp

/-- Claim C10: the vector child accessor is total and returns none
whenever the index is negative or at least the length, the element type
is missing or invalid, the element size is 0, or the storage base
address is 0. -/
theorem claim_C10 (r : SmallVecRecord) (i : Int)
    (h : i < 0 ∨ i ≥ (r.length : Int) ∨ r.element_type = none
      ∨ (∃ t, r.element_type = some t ∧ t.valid = false)
      ∨ r.element_size = 0 ∨ vecBaseAddress r = 0) :
    SmallVecSyntheticProvider.get_child_at_index r i = none := by
  unfold SmallVecSyntheticProvider.get_child_at_index
  rcases h with h | h | h | ⟨t, ht, hv⟩ | h | h
  · simp [h]
  · simp [h]
  · simp [h]
  · simp [ht, hv]
  · cases ht : r.element_type <;> simp [h, ht]
  · unfold vecBaseAddress at h
    cases hb : r.is_heap <;> rw [hb] at h <;> simp at h <;>
      cases ht : r.element_type <;> simp [h, hb, ht]

/-- Witness for C10 at the concrete heap vector with index -1. -/
theorem claim_C10_witness :
    ((-1 : Int) < 0
      ∨ (-1 : Int) ≥ ((SmallVecSyntheticProvider.update sampleVecHeap).length : Int)
      ∨ (SmallVecSyntheticProvider.update sampleVecHeap).element_type = none
      ∨ (∃ t, (SmallVecSyntheticProvider.update sampleVecHeap).element_type = some t
          ∧ t.valid = false)
      ∨ (SmallVecSyntheticProvider.update sampleVecHeap).element_size = 0
      ∨ vecBaseAddress (SmallVecSyntheticProvider.update sampleVecHeap) = 0)
    ∧ SmallVecSyntheticProvider.get_child_at_index
        (SmallVecSyntheticProvider.update sampleVecHeap) (-1) = none :=
  ⟨Or.inl (by decide),
    claim_C10 (SmallVecSyntheticProvider.update sampleVecHeap) (-1)
      (Or.inl (by decide))⟩
